import Mathlib

/-
Verification of the photo-download preparation function.

The repository packages the photos of one event into size-bounded zip
archives, uploads each archive, and records a catalog document per archive.
This file gives a shallow embedding of the relevant source code:

* the size-bounded partitioner (main.js, the chunking loop),
* the streaming chunk-processing pipeline of the prepareDownload variant
  that collects failure records (the startZip / finalizeAndUploadZip /
  per-photo loop in part_000),
* the request-handling control flow of main.js (body parsing, ownership
  check, photo listing, per-chunk processing) together with a trace of the
  remote calls it performs.

Declared photo sizes (floats in the source) are modelled as rationals;
remote blob fetches are modelled by an oracle returning either the byte
length of the fetched blob or an error message.
-/

/-- JavaScript `a || b` for an optional string `a`: both an absent value and
the empty string are falsy and fall through to the default. -/
def jsOr : Option String → String → String
  | none, d => d
  | some s, d => if s = "" then d else s

/-- JavaScript `s.trim()`: strip leading and trailing whitespace. -/
def jsTrim (s : String) : String :=
  ((s.toList.dropWhile Char.isWhitespace).reverse.dropWhile Char.isWhitespace).reverse.asString

/-- One photo document as returned by the photo collection listing. -/
structure Photo where
  id : String
  file_id : String
  file_size : Option ℚ
  file_type : Option String
  file_name : Option String
deriving DecidableEq, Repr

/-- The event document looked up for the ownership check. -/
structure EventDoc where
  user_id : Option String
  event_name : Option String
deriving DecidableEq, Repr

/-- Declared size of a photo in megabytes: `parseFloat(p.file_size || 0)`,
absent sizes count as zero. -/
def declaredSize (p : Photo) : ℚ :=
  p.file_size.getD 0

/-- Size budget of one chunk in main.js: `MAX_CHUNK_MB = 2048`. -/
def MAX_CHUNK_MB : ℚ := 2048

/-- Worker of the chunking loop of main.js: iterates the photos carrying the
closed chunks, the open chunk and its running size.  For each photo of size
`s`, when `size + s` exceeds the budget and the open chunk is non-empty the
open chunk is closed and a fresh one started; the photo is then appended to
the open chunk and the running size increased by `s`.  At the end the open
chunk is closed if non-empty. -/
def chunkGo (budget : ℚ) : List Photo → List (List Photo) → List Photo → ℚ → List (List Photo)
  | [], chunks, cur, _ => if cur = [] then chunks else chunks ++ [cur]
  | p :: ps, chunks, cur, size =>
    if size + declaredSize p > budget ∧ cur ≠ [] then
      chunkGo budget ps (chunks ++ [cur]) [p] (declaredSize p)
    else
      chunkGo budget ps chunks (cur ++ [p]) (size + declaredSize p)

/-- The size-bounded partitioner of main.js: chunk the ordered photo list
under the given budget. -/
def chunkPhotos (budget : ℚ) (photos : List Photo) : List (List Photo) :=
  chunkGo budget photos [] [] 0

/-- Accumulated declared size of a chunk. -/
def chunkSize (c : List Photo) : ℚ :=
  (c.map declaredSize).sum

/-- JavaScript `s.replace(pat, "")` with a string pattern: remove the first
occurrence of `pat` from `s`. -/
def replaceFirst (s pat : String) : String :=
  match s.splitOn pat with
  | [] => s
  | [x] => x
  | x :: y :: rest => x ++ y ++ String.join (rest.map (fun r => pat ++ r))

/-- Sanitization of the event display name used for archive filenames:
`.replace(/[^a-zA-Z0-9_-]/g, "_").substring(0, 50)`. -/
def sanitizeName (s : String) : String :=
  ((s.toList.map (fun c => if c.isAlphanum ∨ c = '_' ∨ c = '-' then c else '_')).take 50).asString

/-- Extension chosen for a zip entry:
`photo.file_type?.replace("image/", "") || photo.file_name?.split(".").pop() || "jpg"`. -/
def entryExt (p : Photo) : String :=
  jsOr (p.file_type.map (fun t => replaceFirst t "image/"))
    (jsOr (p.file_name.map (fun n => (n.splitOn ".").getLastD n)) "jpg")

/-- Name of a zip entry: `photo.file_name || photo_${photo.$id}.${ext}`. -/
def entryFilename (p : Photo) : String :=
  jsOr p.file_name ("photo_" ++ p.id ++ "." ++ entryExt p)

/-- Archive filename for the zip with 1-based ordinal `idx`:
`zipIndex > 1 ? eventName_part${zipIndex}.zip : eventName.zip`. -/
def zipFilenameOf (base : String) (idx : ℕ) : String :=
  if 1 < idx then base ++ "_part" ++ toString idx ++ ".zip" else base ++ ".zip"

/-- JavaScript `x.toFixed(2)` reparsed as a number: round to two decimals. -/
def toFixed2 (q : ℚ) : ℚ :=
  (round (q * 100) : ℤ) / 100

/-- Megabyte size recorded for an archive of `len` bytes:
`(zipBuffer.length / 1024 / 1024).toFixed(2)`. -/
def toFixed2MB (len : ℕ) : ℚ :=
  toFixed2 ((len : ℚ) / 1024 / 1024)

/-- Modelled from the spec: the realized byte length of the container built
by the external archiver collaborator from the appended entries; modelled as
the sum of the entry byte lengths. -/
def archiveLength (entries : List (String × ℕ)) : ℕ :=
  (entries.map (fun e => e.2)).sum

/-- One access grant: `Permission.read/update/delete(Role.user(u))`. -/
inductive Perm where
  | read (u : String)
  | update (u : String)
  | delete (u : String)
deriving DecidableEq, Repr

/-- The grant list used for uploads and download records:
read, update and delete scoped to the owning user. -/
def ownerPerms (u : String) : List Perm :=
  [Perm.read u, Perm.update u, Perm.delete u]

/-- A field value of a created document. -/
inductive JVal where
  | str (s : String)
  | num (q : ℚ)
deriving DecidableEq, Repr

/-- One `storage.createFile` call: target bucket, requested file id, file
name, byte size, and access grants. -/
structure Upload where
  bucket : String
  fileId : String
  name : String
  size : ℕ
  perms : List Perm
deriving DecidableEq, Repr

/-- One `databases.createDocument` call on the download collection: the
returned document id, the field map, and the access grants
(`none` when the call passes no grant list). -/
structure CatalogDoc where
  docId : String
  data : List (String × JVal)
  perms : Option (List Perm)
deriving DecidableEq, Repr

/-- One entry of `createdDownloads`. -/
structure Download where
  id : String
  fileId : String
  filename : String
  sizeMB : ℚ
  photoCount : ℕ
deriving DecidableEq, Repr

/-- A failure record `{id, error}` pushed to `failedPhotos`. -/
structure Failure where
  id : String
  error : String
deriving DecidableEq, Repr

/-- The three effects of one `finalizeAndUploadZip` call: the upload, the
catalog record, and the `createdDownloads` entry. -/
structure FinalizedZip where
  upload : Upload
  record : CatalogDoc
  download : Download
deriving DecidableEq, Repr

/-- Per-invocation context of the chunk-processing pipeline: the verified
caller, the event, its display name, configuration, the clock values, and
the blob-fetch collaborator.  A fetch returns the byte length of the blob
or fails with an error message. -/
structure PipeCtx where
  userId : String
  eventId : String
  eventName : Option String
  downloadBucket : String
  downloadCollection : String
  now : ℕ
  nowIso : String
  fetch : String → Except String ℕ

/-- Mutable state of the pipeline loop: the open archive (entries, running
declared size, appended count), the next zip ordinal, the finalized zips,
and the collected failure records. -/
structure PipeState where
  curSize : ℚ
  curCount : ℕ
  curEntries : List (String × ℕ)
  zipIndex : ℕ
  zips : List FinalizedZip
  failures : List Failure
deriving DecidableEq, Repr

/-- Chunk budget of the pipeline: `MAX_MB = 2000`. -/
def MAX_MB : ℚ := 2000

/-- Minimum appended entries before a split: `MIN_FILES_PER_ZIP = 1`. -/
def MIN_FILES_PER_ZIP : ℕ := 1

/-- Modelled from the spec: the backend-generated unique id returned by the
catalog write (`createDocument(..., 'unique()', ...)`), modelled as a
function of the archive ordinal. -/
def dlDocId (k : ℕ) : String :=
  "dl_doc_" ++ toString k

/-- Sanitized base name: `(eventDoc.event_name || "photos")` sanitized and
length-capped. -/
def baseOf (ctx : PipeCtx) : String :=
  sanitizeName (jsOr ctx.eventName "photos")

/-- Field map of the created download record. -/
def catalogData (userId eventId fileId fileName : String) (sizeMB : ℚ)
    (photoCount zipIdx : ℕ) (nowIso : String) : List (String × JVal) :=
  [("user_id", JVal.str userId),
   ("event_id", JVal.str eventId),
   ("file_id", JVal.str fileId),
   ("file_name", JVal.str fileName),
   ("size_mb", JVal.num sizeMB),
   ("photo_count", JVal.num photoCount),
   ("chunk_index", JVal.num zipIdx),
   ("status", JVal.str "ready"),
   ("created_at", JVal.str nowIso)]

/-- `startZip()`: reset the open archive and its counters. -/
def startZip (st : PipeState) : PipeState :=
  { st with curSize := 0, curCount := 0, curEntries := [] }

/-- The three effects produced by one `finalizeAndUploadZip()` call on the
current state: realize the archive bytes, compute the filename from the
sanitized event name and the current zip ordinal, upload with owner-scoped
read/update/delete grants, create the download record, and build the
`createdDownloads` entry. -/
def mkFinalizedZip (ctx : PipeCtx) (st : PipeState) : FinalizedZip :=
  let len := archiveLength st.curEntries
  let zipSizeMB := toFixed2MB len
  let eventName := baseOf ctx
  let zipFilename := zipFilenameOf eventName st.zipIndex
  let fileId := "dl_" ++ ctx.eventId ++ "_" ++ toString ctx.now ++ "_" ++ toString st.zipIndex
  let up : Upload :=
    { bucket := ctx.downloadBucket, fileId := fileId, name := zipFilename,
      size := len, perms := ownerPerms ctx.userId }
  let rcd : CatalogDoc :=
    { docId := dlDocId st.zipIndex,
      data := catalogData ctx.userId ctx.eventId fileId zipFilename zipSizeMB
        st.curCount st.zipIndex ctx.nowIso,
      perms := some (ownerPerms ctx.userId) }
  let dl : Download :=
    { id := rcd.docId, fileId := fileId, filename := zipFilename,
      sizeMB := zipSizeMB, photoCount := st.curCount }
  { upload := up, record := rcd, download := dl }

/-- `finalizeAndUploadZip()`: emit the upload, the record and the download
entry for the open archive, and advance the zip ordinal. -/
def finalizeAndUploadZip (ctx : PipeCtx) (st : PipeState) : PipeState :=
  { st with zips := st.zips ++ [mkFinalizedZip ctx st],
            zipIndex := st.zipIndex + 1 }

/-- Body of the per-photo loop.  Before fetching, when the declared size
would push the open archive past the budget and at least one entry was
appended, the open archive is finalized/uploaded and a fresh one started.
A failed fetch pushes a failure record and moves on; a successful fetch
appends one named entry and bumps the running size and count. -/
def processPhoto (ctx : PipeCtx) (st : PipeState) (p : Photo) : PipeState :=
  let st1 :=
    if st.curSize + declaredSize p > MAX_MB ∧ MIN_FILES_PER_ZIP ≤ st.curCount then
      startZip (finalizeAndUploadZip ctx st)
    else st
  match ctx.fetch p.file_id with
  | Except.error e => { st1 with failures := st1.failures ++ [{ id := p.id, error := e }] }
  | Except.ok n =>
      { st1 with curEntries := st1.curEntries ++ [(entryFilename p, n)],
                 curSize := st1.curSize + declaredSize p,
                 curCount := st1.curCount + 1 }

/-- State before the loop: counters zeroed, `zipIndex = 1`, no results. -/
def initPipeState : PipeState :=
  { curSize := 0, curCount := 0, curEntries := [], zipIndex := 1, zips := [], failures := [] }

/-- The `summary` object of the success payload. -/
structure Summary where
  totalPhotos : ℕ
  processedPhotos : ℕ
  failedPhotos : ℕ
  totalChunks : ℕ
  totalSizeMB : ℚ
deriving DecidableEq, Repr

/-- The success payload: status, message, summary, the created downloads,
and (only when some photo failed) the failure list. -/
structure PipeResponse where
  statusCode : ℕ
  message : String
  summary : Summary
  downloads : List Download
  failures : Option (List Failure)
deriving DecidableEq, Repr

/-- The `createdDownloads` accumulated by the run. -/
def createdDownloads (st : PipeState) : List Download :=
  st.zips.map (fun z => z.download)

/-- The summary of the final response. -/
def mkSummary (photos : List Photo) (st : PipeState) : Summary :=
  { totalPhotos := photos.length,
    processedPhotos := photos.length - st.failures.length,
    failedPhotos := st.failures.length,
    totalChunks := (createdDownloads st).length,
    totalSizeMB := toFixed2 (((createdDownloads st).map (fun d => d.sizeMB)).sum) }

/-- The final success response: `failures` is attached, and the message
extended, exactly when some photo failed. -/
def mkResponse (photos : List Photo) (st : PipeState) : PipeResponse :=
  { statusCode := 200,
    message :=
      if st.failures.isEmpty then "Download prepared successfully"
      else "Download prepared successfully" ++ " (" ++ toString st.failures.length ++ " photos failed)",
    summary := mkSummary photos st,
    downloads := createdDownloads st,
    failures := if st.failures.isEmpty then none else some st.failures }

/-- The failure record produced by one photo, if any. -/
def failureOf (ctx : PipeCtx) (p : Photo) : Option Failure :=
  match ctx.fetch p.file_id with
  | Except.error e => some { id := p.id, error := e }
  | Except.ok _ => none

/-- All failure records of a run, in input order. -/
def failuresOf (ctx : PipeCtx) (photos : List Photo) : List Failure :=
  photos.filterMap (failureOf ctx)

/-- The chunk-processing stage of prepareDownload: start the first zip,
process every photo in order, finalize the last zip when it holds at least
one entry, and build the success response. -/
def runPipeline (ctx : PipeCtx) (photos : List Photo) : PipeResponse × PipeState :=
  let st0 := startZip initPipeState
  let st1 := photos.foldl (processPhoto ctx) st0
  let st2 := if 0 < st1.curCount then finalizeAndUploadZip ctx st1 else st1
  (mkResponse photos st2, st2)

/-- Relations that hold between the upload, the record and the download
entry of every finalized zip: owner-scoped read/update/delete grants on
both the upload and the record, and record fields referencing the uploaded
object id, the filename, the realized size and the member count — with no
total-group-count field in the record. -/
def StaticRel (ctx : PipeCtx) (z : FinalizedZip) : Prop :=
  z.upload.perms = ownerPerms ctx.userId ∧
  z.record.perms = some (ownerPerms ctx.userId) ∧
  z.record.data.lookup "file_id" = some (JVal.str z.upload.fileId) ∧
  z.record.data.lookup "file_name" = some (JVal.str z.download.filename) ∧
  z.upload.name = z.download.filename ∧
  z.record.data.lookup "size_mb" = some (JVal.num z.download.sizeMB) ∧
  z.record.data.lookup "photo_count" = some (JVal.num (z.download.photoCount : ℚ)) ∧
  z.record.data.lookup "total_chunks" = none

/-- Invariant of the pipeline state: the next ordinal tracks the number of
finalized zips, every finalized zip holds at least one appended member, the
filenames and the recorded chunk ordinals follow the 1-based position of
the zip, and the per-zip relations of `StaticRel` hold. -/
def ZipsOk (ctx : PipeCtx) (st : PipeState) : Prop :=
  st.zipIndex = st.zips.length + 1 ∧
  (∀ z ∈ st.zips, 0 < z.download.photoCount) ∧
  st.zips.map (fun z => z.download.filename) =
    (List.range st.zips.length).map (fun i => zipFilenameOf (baseOf ctx) (i + 1)) ∧
  st.zips.map (fun z => z.record.data.lookup "chunk_index") =
    (List.range st.zips.length).map (fun i => some (JVal.num (((i + 1 : ℕ)) : ℚ))) ∧
  ∀ z ∈ st.zips, StaticRel ctx z

/-- Example photo of declared size 1000. -/
def exPhotoA : Photo :=
  { id := "1", file_id := "f1", file_size := some 1000, file_type := none, file_name := none }

/-- Example photo of declared size 1200. -/
def exPhotoB : Photo :=
  { id := "2", file_id := "f2", file_size := some 1200, file_type := none, file_name := none }

/-- Example photo of declared size 100. -/
def exPhotoC : Photo :=
  { id := "3", file_id := "f3", file_size := some 100, file_type := none, file_name := none }

/-- Example photos for the partitioner: the spec scenario
`[{size 1000}, {size 1200}, {size 100}]`. -/
def exPartPhotos : List Photo :=
  [exPhotoA, exPhotoB, exPhotoC]

/-- Example small photo of declared size 10. -/
def exPhotoSmall : Photo :=
  { id := "a", file_id := "fa", file_size := some 10, file_type := none, file_name := none }

/-- Example oversized photo of declared size 3000. -/
def exPhotoBig : Photo :=
  { id := "b", file_id := "fb", file_size := some 3000, file_type := none, file_name := none }

/-- Example tiny photo of declared size 1. -/
def exPhotoTiny : Photo :=
  { id := "c", file_id := "fc", file_size := some 1, file_type := none, file_name := none }

/-- Example photos with an oversized middle object. -/
def exOversizedMid : List Photo :=
  [exPhotoSmall, exPhotoBig, exPhotoTiny]

/-- Example pipeline context whose fetch fails exactly on file id `f1`. -/
def exFailCtx : PipeCtx :=
  { userId := "owner1", eventId := "ev1", eventName := some "My Event",
    downloadBucket := "dlBucket", downloadCollection := "dlColl",
    now := 42, nowIso := "2026-01-01T00:00:00Z",
    fetch := fun fid => if fid = "f1" then Except.error "boom" else Except.ok 5 }

/-- Example photos for the failure scenarios: the first fetch fails, the
second succeeds. -/
def exFailPhotos : List Photo :=
  [{ id := "p1", file_id := "f1", file_size := some 3, file_type := none, file_name := none },
   { id := "p2", file_id := "f2", file_size := some 4, file_type := some "image/png", file_name := none }]

/-- Example context for the filename scenario: no display name recorded,
every fetch succeeds. -/
def exNameCtx : PipeCtx :=
  { userId := "owner1", eventId := "ev1", eventName := none,
    downloadBucket := "dlBucket", downloadCollection := "dlColl",
    now := 7, nowIso := "2026-01-01T00:00:00Z",
    fetch := fun _ => Except.ok 10 }

/-- Two photos of 1500 MB each: the second one forces a split, so the run
produces two zips. -/
def exTwoZipPhotos : List Photo :=
  [{ id := "p1", file_id := "f1", file_size := some 1500, file_type := none, file_name := none },
   { id := "p2", file_id := "f2", file_size := some 1500, file_type := none, file_name := none }]

/-- One small photo: the run produces exactly one zip. -/
def exOneZipPhotos : List Photo :=
  [{ id := "p1", file_id := "f1", file_size := some 1, file_type := none, file_name := none }]

/-- Example context for the catalog-record scenario: every fetch succeeds. -/
def exRecordCtx : PipeCtx :=
  { userId := "owner1", eventId := "ev1", eventName := some "Trip",
    downloadBucket := "dlBucket", downloadCollection := "dlColl",
    now := 9, nowIso := "2026-01-01T00:00:00Z",
    fetch := fun _ => Except.ok 25 }

/-- One remote call performed by main.js, in order of issue. -/
inductive RemoteCall where
  | getEventDoc (eventId : String)
  | listPhotos (offset : ℕ)
  | fetchBlob (fileId : String)
  | uploadFile (u : Upload)
  | createDoc (d : CatalogDoc)
deriving DecidableEq, Repr

/-- The JSON response of main.js. -/
inductive MainResponse where
  | badRequest (error : String)
  | forbidden
  | notFound
  | serverError
  | success (totalChunks : ℕ) (downloadIds : List String)
deriving DecidableEq, Repr

/-- The `statusCode` field of a main.js response. -/
def MainResponse.statusCode : MainResponse → ℕ
  | MainResponse.badRequest _ => 400
  | MainResponse.forbidden => 403
  | MainResponse.notFound => 404
  | MainResponse.serverError => 500
  | MainResponse.success _ _ => 200

/-- One request to main.js: whether the raw body parsed, the `eventId` of
the payload, and the `x-appwrite-user-id` header (absent when the caller
sent no identity). -/
structure MainRequest where
  bodyValid : Bool
  eventId : Option String
  userId : Option String
deriving DecidableEq, Repr

/-- The external collaborators of main.js: the event-document lookup
(`none` when `getDocument` throws), the stable ordered photo listing backing
the paginated query, the blob fetch, the clock, and the download bucket. -/
structure MainWorld where
  eventDoc : Option EventDoc
  photoDocs : List Photo
  fetch : String → Except String ℕ
  now : ℕ
  downloadBucket : String

/-- The photo-listing loop of main.js: request pages of 100 documents at
increasing offsets until an empty or short page arrives, collecting the
documents and the listing calls. -/
def collectPages (docs : List Photo) (offset : ℕ) : List Photo × List RemoteCall :=
  if h0 : ((docs.drop offset).take 100).length = 0 then ([], [RemoteCall.listPhotos offset])
  else if h1 : ((docs.drop offset).take 100).length < 100 then
    ((docs.drop offset).take 100, [RemoteCall.listPhotos offset])
  else
    let r := collectPages docs (offset + ((docs.drop offset).take 100).length)
    ((docs.drop offset).take 100 ++ r.1, RemoteCall.listPhotos offset :: r.2)
termination_by docs.length - offset
decreasing_by
  simp only [List.length_take, List.length_drop] at h0 h1 ⊢
  omega

/-- Modelled from the spec: the backend-generated unique id returned by the
catalog write of main.js, modelled as a function of the chunk index. -/
def mainDocId (i : ℕ) : String :=
  "main_doc_" ++ toString i

/-- Zip filename of main.js for the chunk with 0-based index `i`:
`chunks.length > 1 ? name_part_${i+1}.zip : name.zip`, with no
sanitization of the display name. -/
def mainZipFilename (ename : Option String) (totalChunks i : ℕ) : String :=
  if 1 < totalChunks then jsOr ename "photos" ++ "_part_" ++ toString (i + 1) ++ ".zip"
  else jsOr ename "photos" ++ ".zip"

/-- Entries successfully appended for one chunk of main.js: each fetched
photo becomes an entry named `photo_${$id}.${file_type || 'jpg'}`; failed
fetches are only logged. -/
def mainChunkEntries (w : MainWorld) (chunk : List Photo) : List (String × ℕ) :=
  chunk.filterMap (fun p =>
    match w.fetch p.file_id with
    | Except.ok n => some ("photo_" ++ p.id ++ "." ++ jsOr p.file_type "jpg", n)
    | Except.error _ => none)

/-- Processing of one chunk of main.js: fetch every member, finalize the
archive, upload with read/delete grants for the caller, and create the
download record (without an explicit grant list) holding the uploaded file
id, filename, size, full member count, 1-based chunk index and total chunk
count.  Returns the created document id and the remote calls issued. -/
def mainProcessChunk (w : MainWorld) (u eid : String) (ename : Option String)
    (totalChunks i : ℕ) (chunk : List Photo) : String × List RemoteCall :=
  let entries := mainChunkEntries w chunk
  let len := archiveLength entries
  let zipFilename := mainZipFilename ename totalChunks i
  let fileId := "download_" ++ toString w.now ++ "_" ++ toString i
  let up : Upload :=
    { bucket := w.downloadBucket, fileId := fileId, name := zipFilename,
      size := len, perms := [Perm.read u, Perm.delete u] }
  let doc : CatalogDoc :=
    { docId := mainDocId i,
      data := [("user_id", JVal.str u),
               ("event_id", JVal.str eid),
               ("file_id", JVal.str fileId),
               ("file_name", JVal.str zipFilename),
               ("size_mb", JVal.num (toFixed2MB len)),
               ("photo_count", JVal.num chunk.length),
               ("chunk_index", JVal.num (i + 1)),
               ("total_chunks", JVal.num totalChunks)],
      perms := none }
  (doc.docId,
   chunk.map (fun p => RemoteCall.fetchBlob p.file_id) ++
     [RemoteCall.uploadFile up, RemoteCall.createDoc doc])

/-- The chunk loop of main.js, carrying the 0-based chunk index. -/
def mainProcessChunks (w : MainWorld) (u eid : String) (ename : Option String)
    (totalChunks : ℕ) : ℕ → List (List Photo) → List String × List RemoteCall
  | _, [] => ([], [])
  | i, c :: cs =>
    let r := mainProcessChunk w u eid ename totalChunks i c
    let rest := mainProcessChunks w u eid ename totalChunks (i + 1) cs
    (r.1 :: rest.1, r.2 ++ rest.2)

/-- The request flow of main.js: parse the body, require `eventId`, look up
the event document, compare its defaulted and trimmed `user_id` against the
caller identity header and fail with 403 on mismatch; then list all photos,
fail with 404 when none exist, partition them under the 2048 MB budget, and
process every chunk.  Returns the response and the trace of remote calls. -/
def mainRun (req : MainRequest) (w : MainWorld) : MainResponse × List RemoteCall :=
  if ¬ req.bodyValid then (MainResponse.badRequest "Invalid JSON in request body", [])
  else
    match req.eventId with
    | none => (MainResponse.badRequest "Missing eventId", [])
    | some eid =>
      if eid = "" then (MainResponse.badRequest "Missing eventId", [])
      else
        match w.eventDoc with
        | none => (MainResponse.serverError, [RemoteCall.getEventDoc eid])
        | some doc =>
          if req.userId = some (jsTrim (jsOr doc.user_id "")) then
            let pages := collectPages w.photoDocs 0
            let tr0 := RemoteCall.getEventDoc eid :: pages.2
            if pages.1.isEmpty then (MainResponse.notFound, tr0)
            else
              let chunks := chunkPhotos MAX_CHUNK_MB pages.1
              let res := mainProcessChunks w (jsTrim (jsOr doc.user_id "")) eid
                doc.event_name chunks.length 0 chunks
              (MainResponse.success chunks.length res.1, tr0 ++ res.2)
          else (MainResponse.forbidden, [RemoteCall.getEventDoc eid])

/-- An event world owned by `alice` with one photo. -/
def exMainWorld : MainWorld :=
  { eventDoc := some { user_id := some "alice", event_name := some "Trip" },
    photoDocs := [{ id := "p1", file_id := "f1", file_size := some 3,
                    file_type := none, file_name := none }],
    fetch := fun _ => Except.ok 5, now := 3, downloadBucket := "dlB" }

/-- A valid request by a caller who does not own the event. -/
def exMainReqEvil : MainRequest :=
  { bodyValid := true, eventId := some "ev1", userId := some "mallory" }

/-- A valid request carrying no `x-appwrite-user-id` header. -/
def exMainReqNoUser : MainRequest :=
  { bodyValid := true, eventId := some "ev1", userId := none }

/-- Whether a remote call is a `storage.createFile` upload. -/
def isUploadCall : RemoteCall → Bool
  | RemoteCall.uploadFile _ => true
  | _ => false

/-- Whether a remote call is a `databases.createDocument` catalog write. -/
def isCreateDocCall : RemoteCall → Bool
  | RemoteCall.createDoc _ => true
  | _ => false

/-- Example photo with file id `f1` for the main.js runs. -/
def exMainPhoto1 : Photo :=
  { id := "p1", file_id := "f1", file_size := some 3, file_type := none, file_name := none }

/-- Example photo with file id `f2` for the main.js runs. -/
def exMainPhoto2 : Photo :=
  { id := "p2", file_id := "f2", file_size := some 4, file_type := none, file_name := none }

/-- A valid request by the owner `alice` of the event. -/
def exMainReqOwner : MainRequest :=
  { bodyValid := true, eventId := some "ev1", userId := some "alice" }

/-- A world with one photo whose blob fetch always fails. -/
def exAllFailWorld : MainWorld :=
  { eventDoc := some { user_id := some "alice", event_name := some "Trip" },
    photoDocs := [exMainPhoto1],
    fetch := fun _ => Except.error "down", now := 3, downloadBucket := "dlB" }

/-- The same world with every blob fetch succeeding. -/
def exAllOkWorld : MainWorld :=
  { eventDoc := some { user_id := some "alice", event_name := some "Trip" },
    photoDocs := [exMainPhoto1],
    fetch := fun _ => Except.ok 5, now := 3, downloadBucket := "dlB" }

/-- A world with two photos where only the fetch of file id `f1` fails. -/
def exMixWorld : MainWorld :=
  { eventDoc := some { user_id := some "alice", event_name := some "Trip" },
    photoDocs := [exMainPhoto1, exMainPhoto2],
    fetch := fun fid => if fid = "f1" then Except.error "down" else Except.ok 5,
    now := 3, downloadBucket := "dlB" }

theorem chunkGo_flatten (budget : ℚ) :
    ∀ (ps : List Photo) (chunks : List (List Photo)) (cur : List Photo) (size : ℚ),
      (chunkGo budget ps chunks cur size).flatten = chunks.flatten ++ (cur ++ ps) := by
  intro ps
  induction ps with
  | nil =>
      intro chunks cur size
      by_cases h : cur = [] <;> simp [chunkGo, h]
  | cons p ps ih =>
      intro chunks cur size
      by_cases h : size + declaredSize p > budget ∧ cur ≠ []
      · rw [chunkGo, if_pos h, ih]
        simp
      · rw [chunkGo, if_neg h, ih]
        simp

theorem chunkGo_size_le (budget : ℚ) :
    ∀ (ps : List Photo) (chunks : List (List Photo)) (cur : List Photo) (size : ℚ),
      (∀ c ∈ chunks, 2 ≤ c.length → chunkSize c ≤ budget) →
      (2 ≤ cur.length → chunkSize cur ≤ budget) →
      size = chunkSize cur →
      ∀ c ∈ chunkGo budget ps chunks cur size, 2 ≤ c.length → chunkSize c ≤ budget := by
  intro ps
  induction ps with
  | nil =>
      intro chunks cur size hchunks hcur _ c hc
      by_cases h : cur = []
      · rw [chunkGo, if_pos h] at hc
        exact hchunks c hc
      · rw [chunkGo, if_neg h] at hc
        rcases List.mem_append.mp hc with h1 | h1
        · exact hchunks c h1
        · rw [List.mem_singleton.mp h1]
          exact hcur
  | cons p ps ih =>
      intro chunks cur size hchunks hcur hsize c hc
      by_cases h : size + declaredSize p > budget ∧ cur ≠ []
      · rw [chunkGo, if_pos h] at hc
        refine ih (chunks ++ [cur]) [p] (declaredSize p) ?_ ?_ ?_ c hc
        · intro c' hc'
          rcases List.mem_append.mp hc' with h1 | h1
          · exact hchunks c' h1
          · rw [List.mem_singleton.mp h1]
            exact hcur
        · intro h2
          simp at h2
        · simp [chunkSize]
      · rw [chunkGo, if_neg h] at hc
        refine ih chunks (cur ++ [p]) (size + declaredSize p) hchunks ?_ ?_ c hc
        · intro hlen
          rcases eq_or_ne cur [] with hcur0 | hcur0
          · subst hcur0
            simp at hlen
          · have h1 : ¬ size + declaredSize p > budget := fun hgt => h ⟨hgt, hcur0⟩
            rw [not_lt] at h1
            have heq : chunkSize (cur ++ [p]) = size + declaredSize p := by
              simp [chunkSize, hsize]
            rw [heq]
            exact h1
        · simp [chunkSize, hsize]

theorem chunkGo_oversized (budget : ℚ) :
    ∀ (ps : List Photo) (chunks : List (List Photo)) (cur : List Photo) (size : ℚ),
      (∀ p ∈ ps, 0 ≤ declaredSize p) →
      (∀ p ∈ cur, 0 ≤ declaredSize p) →
      size = chunkSize cur →
      (∀ c ∈ chunks, ∀ p ∈ c, budget < declaredSize p → c = [p]) →
      (∀ p ∈ cur, budget < declaredSize p → cur = [p]) →
      ∀ c ∈ chunkGo budget ps chunks cur size, ∀ p ∈ c, budget < declaredSize p → c = [p] := by
  intro ps
  induction ps with
  | nil =>
      intro chunks cur size _ _ _ hchunks hcur c hc
      by_cases h : cur = []
      · rw [chunkGo, if_pos h] at hc
        exact hchunks c hc
      · rw [chunkGo, if_neg h] at hc
        rcases List.mem_append.mp hc with h1 | h1
        · exact hchunks c h1
        · rw [List.mem_singleton.mp h1]
          exact hcur
  | cons p ps ih =>
      intro chunks cur size hps hcurpos hsize hchunks hcur c hc
      have hp0 : 0 ≤ declaredSize p := hps p (List.mem_cons_self p ps)
      have hps' : ∀ q ∈ ps, 0 ≤ declaredSize q := fun q hq => hps q (List.mem_cons_of_mem p hq)
      by_cases h : size + declaredSize p > budget ∧ cur ≠ []
      · rw [chunkGo, if_pos h] at hc
        refine ih (chunks ++ [cur]) [p] (declaredSize p) hps' ?_ ?_ ?_ ?_ c hc
        · intro q hq
          rw [List.mem_singleton.mp hq]
          exact hp0
        · simp [chunkSize]
        · intro c' hc'
          rcases List.mem_append.mp hc' with h1 | h1
          · exact hchunks c' h1
          · rw [List.mem_singleton.mp h1]
            exact hcur
        · intro q hq _
          rw [List.mem_singleton.mp hq]
      · rw [chunkGo, if_neg h] at hc
        refine ih chunks (cur ++ [p]) (size + declaredSize p) hps' ?_ ?_ hchunks ?_ c hc
        · intro q hq
          rcases List.mem_append.mp hq with h1 | h1
          · exact hcurpos q h1
          · rw [List.mem_singleton.mp h1]
            exact hp0
        · simp [chunkSize, hsize]
        · intro q hq hbig
          by_cases hcur0 : cur = []
          · subst hcur0
            simp at hq
            rw [hq]
            simp
          · exfalso
            have h1 : ¬ size + declaredSize p > budget := fun hgt => h ⟨hgt, hcur0⟩
            rw [not_lt] at h1
            rcases List.mem_append.mp hq with h2 | h2
            · have hsingle := hcur q h2 hbig
              have hs : size = declaredSize q := by
                rw [hsize, hsingle]
                simp [chunkSize]
              linarith
            · have hq' : q = p := List.mem_singleton.mp h2
              have hsum0 : 0 ≤ chunkSize cur := by
                apply List.sum_nonneg
                intro x hx
                rcases List.mem_map.mp hx with ⟨y, hy, hxy⟩
                rw [← hxy]
                exact hcurpos y hy
              rw [hq'] at hbig
              have hsz : 0 ≤ size := hsize ▸ hsum0
              linarith

theorem mkFinalizedZip_photoCount (ctx : PipeCtx) (st : PipeState) :
    (mkFinalizedZip ctx st).download.photoCount = st.curCount := rfl

theorem mkFinalizedZip_filename (ctx : PipeCtx) (st : PipeState) :
    (mkFinalizedZip ctx st).download.filename = zipFilenameOf (baseOf ctx) st.zipIndex := rfl

theorem mkFinalizedZip_chunk_index (ctx : PipeCtx) (st : PipeState) :
    (mkFinalizedZip ctx st).record.data.lookup "chunk_index" =
      some (JVal.num (st.zipIndex : ℚ)) := by
  simp [mkFinalizedZip, catalogData, List.lookup]

theorem staticRel_mkFinalizedZip (ctx : PipeCtx) (st : PipeState) :
    StaticRel ctx (mkFinalizedZip ctx st) := by
  refine ⟨rfl, rfl, ?_, ?_, rfl, ?_, ?_, ?_⟩ <;>
    simp [mkFinalizedZip, catalogData, List.lookup]

theorem zipsOk_startZip (ctx : PipeCtx) (st : PipeState) (h : ZipsOk ctx st) :
    ZipsOk ctx (startZip st) := h

theorem zipsOk_finalize (ctx : PipeCtx) (st : PipeState) (h : ZipsOk ctx st)
    (hc : 0 < st.curCount) : ZipsOk ctx (finalizeAndUploadZip ctx st) := by
  obtain ⟨h1, h2, h3, h4, h5⟩ := h
  refine ⟨?_, ?_, ?_, ?_, ?_⟩
  · simp [finalizeAndUploadZip, h1]
  · intro z hz
    simp only [finalizeAndUploadZip, List.mem_append, List.mem_singleton] at hz
    rcases hz with hz | hz
    · exact h2 z hz
    · rw [hz, mkFinalizedZip_photoCount]
      exact hc
  · show (st.zips ++ [mkFinalizedZip ctx st]).map _ = _
    have hlen2 : (finalizeAndUploadZip ctx st).zips.length = st.zips.length + 1 := by
      simp [finalizeAndUploadZip]
    rw [List.map_append, h3, hlen2, List.range_succ, List.map_append]
    simp [mkFinalizedZip_filename, h1]
  · show (st.zips ++ [mkFinalizedZip ctx st]).map _ = _
    have hlen2 : (finalizeAndUploadZip ctx st).zips.length = st.zips.length + 1 := by
      simp [finalizeAndUploadZip]
    rw [List.map_append, h4, hlen2, List.range_succ, List.map_append]
    simp [mkFinalizedZip_chunk_index, h1]
  · intro z hz
    simp only [finalizeAndUploadZip, List.mem_append, List.mem_singleton] at hz
    rcases hz with hz | hz
    · exact h5 z hz
    · rw [hz]
      exact staticRel_mkFinalizedZip ctx st

theorem zipsOk_process (ctx : PipeCtx) (st : PipeState) (p : Photo) (h : ZipsOk ctx st) :
    ZipsOk ctx (processPhoto ctx st p) := by
  unfold processPhoto
  by_cases hc : st.curSize + declaredSize p > MAX_MB ∧ MIN_FILES_PER_ZIP ≤ st.curCount
  · simp only [if_pos hc]
    have h1 : ZipsOk ctx (startZip (finalizeAndUploadZip ctx st)) :=
      zipsOk_startZip ctx _ (zipsOk_finalize ctx st h (Nat.lt_of_lt_of_le Nat.zero_lt_one hc.2))
    cases hf : ctx.fetch p.file_id <;> exact h1
  · simp only [if_neg hc]
    cases hf : ctx.fetch p.file_id <;> exact h

theorem zipsOk_foldl (ctx : PipeCtx) :
    ∀ (photos : List Photo) (st : PipeState), ZipsOk ctx st →
      ZipsOk ctx (photos.foldl (processPhoto ctx) st) := by
  intro photos
  induction photos with
  | nil => intro st h; exact h
  | cons p ps ih =>
      intro st h
      exact ih (processPhoto ctx st p) (zipsOk_process ctx st p h)

theorem zipsOk_init (ctx : PipeCtx) : ZipsOk ctx (startZip initPipeState) := by
  refine ⟨rfl, ?_, rfl, rfl, ?_⟩ <;> intro z hz <;> simp [startZip, initPipeState] at hz

theorem zipsOk_run (ctx : PipeCtx) (photos : List Photo) :
    ZipsOk ctx (runPipeline ctx photos).2 := by
  unfold runPipeline
  have h1 := zipsOk_foldl ctx photos (startZip initPipeState) (zipsOk_init ctx)
  by_cases hc : 0 < (photos.foldl (processPhoto ctx) (startZip initPipeState)).curCount
  · simp only [if_pos hc]
    exact zipsOk_finalize ctx _ h1 hc
  · simp only [if_neg hc]
    exact h1

theorem process_failures (ctx : PipeCtx) (st : PipeState) (p : Photo) :
    (processPhoto ctx st p).failures = st.failures ++ (failureOf ctx p).toList := by
  unfold processPhoto failureOf
  by_cases hc : st.curSize + declaredSize p > MAX_MB ∧ MIN_FILES_PER_ZIP ≤ st.curCount
  · simp only [if_pos hc]
    cases hf : ctx.fetch p.file_id <;> simp [finalizeAndUploadZip, startZip]
  · simp only [if_neg hc]
    cases hf : ctx.fetch p.file_id <;> simp

theorem foldl_failures (ctx : PipeCtx) :
    ∀ (photos : List Photo) (st : PipeState),
      (photos.foldl (processPhoto ctx) st).failures = st.failures ++ failuresOf ctx photos := by
  intro photos
  induction photos with
  | nil => intro st; simp [failuresOf]
  | cons p ps ih =>
      intro st
      rw [List.foldl_cons, ih, process_failures]
      unfold failuresOf
      rw [List.filterMap_cons]
      cases hf : failureOf ctx p <;> simp

theorem run_failures (ctx : PipeCtx) (photos : List Photo) :
    (runPipeline ctx photos).2.failures = failuresOf ctx photos := by
  unfold runPipeline
  have h1 := foldl_failures ctx photos (startZip initPipeState)
  by_cases hc : 0 < (photos.foldl (processPhoto ctx) (startZip initPipeState)).curCount
  · simp only [if_pos hc]
    show (finalizeAndUploadZip ctx _).failures = _
    rw [show ∀ st, (finalizeAndUploadZip ctx st).failures = st.failures from fun _ => rfl, h1]
    simp [startZip, initPipeState]
  · simp only [if_neg hc]
    rw [h1]
    simp [startZip, initPipeState]

/-- C1: for every input list of objects with non-negative declared sizes and
every budget, the partitioner's output groups, concatenated in group order,
are exactly the input list — no object lost, duplicated, or reordered. -/
theorem partition_concat_eq_input (budget : ℚ) (photos : List Photo)
    (hpos : ∀ p ∈ photos, 0 ≤ declaredSize p) :
    (chunkPhotos budget photos).flatten = photos := by
  have h := chunkGo_flatten budget photos [] [] 0
  simpa [chunkPhotos] using h

/-- Witness for C1: the spec scenario list with sizes 1000, 1200, 100. -/
theorem partition_concat_eq_input_witness :
    (chunkPhotos 2048 exPartPhotos).flatten = exPartPhotos :=
  partition_concat_eq_input 2048 exPartPhotos (by
    intro p hp
    simp only [exPartPhotos, List.mem_cons, List.not_mem_nil, or_false] at hp
    rcases hp with rfl | rfl | rfl <;>
      norm_num [declaredSize, Option.getD, exPhotoA, exPhotoB, exPhotoC])

/-- C2: for every input list with non-negative declared sizes, every emitted
group with two or more members has accumulated size at most the budget. -/
theorem partition_multi_group_le_budget (budget : ℚ) (photos : List Photo)
    (hpos : ∀ p ∈ photos, 0 ≤ declaredSize p) :
    ∀ c ∈ chunkPhotos budget photos, 2 ≤ c.length → chunkSize c ≤ budget := by
  refine chunkGo_size_le budget photos [] [] 0 ?_ ?_ rfl
  · intro c hc
    simp at hc
  · intro h
    simp at h

/-- Witness for C2: in the spec scenario the two-member group `[B, C]` is
emitted and its accumulated size 1300 stays within the budget. -/
theorem partition_multi_group_le_budget_witness :
    ([exPhotoB, exPhotoC] ∈ chunkPhotos 2048 exPartPhotos ∧
      2 ≤ ([exPhotoB, exPhotoC] : List Photo).length) ∧
    chunkSize [exPhotoB, exPhotoC] ≤ 2048 := by
  have hpos : ∀ p ∈ exPartPhotos, 0 ≤ declaredSize p := by
    intro p hp
    simp only [exPartPhotos, List.mem_cons, List.not_mem_nil, or_false] at hp
    rcases hp with rfl | rfl | rfl <;>
      norm_num [declaredSize, Option.getD, exPhotoA, exPhotoB, exPhotoC]
  have hmem : [exPhotoB, exPhotoC] ∈ chunkPhotos 2048 exPartPhotos := by
    norm_num [chunkPhotos, chunkGo, declaredSize, exPartPhotos,
      exPhotoA, exPhotoB, exPhotoC]
    simp
  have hlen : 2 ≤ ([exPhotoB, exPhotoC] : List Photo).length := by simp
  exact ⟨⟨hmem, hlen⟩,
    partition_multi_group_le_budget 2048 exPartPhotos hpos [exPhotoB, exPhotoC] hmem hlen⟩

/-- C3: for every input list with non-negative declared sizes, every group
containing an object whose declared size strictly exceeds the budget is the
singleton group of that object. -/
theorem partition_oversized_singleton (budget : ℚ) (photos : List Photo)
    (hpos : ∀ p ∈ photos, 0 ≤ declaredSize p) :
    ∀ c ∈ chunkPhotos budget photos, ∀ p ∈ c, budget < declaredSize p → c = [p] := by
  refine chunkGo_oversized budget photos [] [] 0 hpos ?_ rfl ?_ ?_
  · intro p hp
    simp at hp
  · intro c hc
    simp at hc
  · intro p hp
    simp at hp

/-- Witness for C3: the oversized object of size 3000 between small ones is
emitted as a singleton group. -/
theorem partition_oversized_singleton_witness :
    ([exPhotoBig] ∈ chunkPhotos 2048 exOversizedMid ∧
      exPhotoBig ∈ ([exPhotoBig] : List Photo) ∧ 2048 < declaredSize exPhotoBig) ∧
    ([exPhotoBig] : List Photo) = [exPhotoBig] := by
  have hpos : ∀ p ∈ exOversizedMid, 0 ≤ declaredSize p := by
    intro p hp
    simp only [exOversizedMid, List.mem_cons, List.not_mem_nil, or_false] at hp
    rcases hp with rfl | rfl | rfl <;>
      norm_num [declaredSize, Option.getD, exPhotoSmall, exPhotoBig, exPhotoTiny]
  have hmem : [exPhotoBig] ∈ chunkPhotos 2048 exOversizedMid := by
    norm_num [chunkPhotos, chunkGo, declaredSize, exOversizedMid,
      exPhotoSmall, exPhotoBig, exPhotoTiny]
  have hpmem : exPhotoBig ∈ ([exPhotoBig] : List Photo) := by simp
  have hbig : 2048 < declaredSize exPhotoBig := by
    norm_num [declaredSize, Option.getD, exPhotoBig]
  exact ⟨⟨hmem, hpmem, hbig⟩,
    partition_oversized_singleton 2048 exOversizedMid hpos [exPhotoBig] hmem exPhotoBig
      hpmem hbig⟩

/-- C5: the success payload enumerates every failed object with its id and
error, its failure count is exact, and its chunk count matches the listed
downloads. -/
theorem pipeline_failures_enumerated (ctx : PipeCtx) (photos : List Photo) :
    (runPipeline ctx photos).1.statusCode = 200 ∧
    (runPipeline ctx photos).1.summary.failedPhotos = (failuresOf ctx photos).length ∧
    (runPipeline ctx photos).1.summary.totalChunks =
      (runPipeline ctx photos).1.downloads.length ∧
    ∀ p ∈ photos, ∀ e, ctx.fetch p.file_id = Except.error e →
      ({ id := p.id, error := e } : Failure) ∈ ((runPipeline ctx photos).1.failures).getD [] := by
  refine ⟨rfl, ?_, rfl, ?_⟩
  · show (runPipeline ctx photos).2.failures.length = _
    rw [run_failures]
  · intro p hp e he
    have hmem : ({ id := p.id, error := e } : Failure) ∈ failuresOf ctx photos :=
      List.mem_filterMap.mpr ⟨p, hp, by simp [failureOf, he]⟩
    have hfe : (runPipeline ctx photos).2.failures = failuresOf ctx photos :=
      run_failures ctx photos
    have hne : ¬ ((runPipeline ctx photos).2.failures.isEmpty = true) := by
      rw [hfe, List.isEmpty_iff]
      exact List.ne_nil_of_mem hmem
    show ({ id := p.id, error := e } : Failure) ∈
      (if (runPipeline ctx photos).2.failures.isEmpty then none
       else some ((runPipeline ctx photos).2.failures)).getD []
    rw [if_neg hne, Option.getD_some, hfe]
    exact hmem

/-- Witness for C5: a run in which the photo with file id `f1` fails. -/
theorem pipeline_failures_enumerated_witness :
    (runPipeline exFailCtx exFailPhotos).1.statusCode = 200 ∧
    (runPipeline exFailCtx exFailPhotos).1.summary.failedPhotos =
      (failuresOf exFailCtx exFailPhotos).length ∧
    (runPipeline exFailCtx exFailPhotos).1.summary.totalChunks =
      (runPipeline exFailCtx exFailPhotos).1.downloads.length ∧
    ∀ p ∈ exFailPhotos, ∀ e, exFailCtx.fetch p.file_id = Except.error e →
      ({ id := p.id, error := e } : Failure) ∈
        ((runPipeline exFailCtx exFailPhotos).1.failures).getD [] :=
  pipeline_failures_enumerated exFailCtx exFailPhotos

/-- C7 counterexample: a two-zip run names its first archive with the plain
base name and no ordinal suffix, so not every filename of a multi-group run
carries an ordinal suffix. -/
theorem pipeline_first_filename_unsuffixed_cex :
    ((runPipeline exNameCtx exTwoZipPhotos).1.downloads.map (fun d => d.filename)) =
      ["photos.zip", "photos_part2.zip"] ∧
    1 < (runPipeline exNameCtx exTwoZipPhotos).1.downloads.length ∧
    "photos.zip" ≠ baseOf exNameCtx ++ "_part" ++ toString 1 ++ ".zip" := by
  refine ⟨?_, ?_, by decide⟩
  · norm_num [runPipeline, List.foldl, processPhoto, startZip, finalizeAndUploadZip,
      mkFinalizedZip, initPipeState, mkResponse, createdDownloads, mkSummary,
      declaredSize, MAX_MB, MIN_FILES_PER_ZIP, exNameCtx, exTwoZipPhotos,
      baseOf, jsOr, zipFilenameOf, sanitizeName]
    decide
  · norm_num [runPipeline, List.foldl, processPhoto, startZip, finalizeAndUploadZip,
      mkFinalizedZip, initPipeState, mkResponse, createdDownloads, mkSummary,
      declaredSize, MAX_MB, MIN_FILES_PER_ZIP, exNameCtx, exTwoZipPhotos]

/-- C7 (amended): filenames follow the sanitized, length-capped base name
with the zip ordinal equal to the archive's 1-based position; the first
archive — and only it — uses the unsuffixed base name, and every later
archive carries its distinct ordinal suffix. -/
theorem pipeline_filename_scheme (ctx : PipeCtx) (photos : List Photo) :
    (runPipeline ctx photos).1.downloads.map (fun d => d.filename) =
      (List.range (runPipeline ctx photos).1.downloads.length).map
        (fun i => zipFilenameOf (baseOf ctx) (i + 1)) ∧
    baseOf ctx = sanitizeName (jsOr ctx.eventName "photos") ∧
    zipFilenameOf (baseOf ctx) 1 = baseOf ctx ++ ".zip" ∧
    ∀ n : ℕ, 1 < n →
      zipFilenameOf (baseOf ctx) n = baseOf ctx ++ "_part" ++ toString n ++ ".zip" := by
  refine ⟨?_, rfl, by simp [zipFilenameOf], fun n hn => by simp [zipFilenameOf, hn]⟩
  have h := (zipsOk_run ctx photos).2.2.1
  have hlen : (runPipeline ctx photos).1.downloads.length =
      (runPipeline ctx photos).2.zips.length := by
    show ((runPipeline ctx photos).2.zips.map (fun z => z.download)).length = _
    rw [List.length_map]
  rw [hlen]
  show ((runPipeline ctx photos).2.zips.map (fun z => z.download)).map (fun d => d.filename) = _
  rw [List.map_map]
  exact h

/-- Witness for C7 (amended): the two-zip run, with the suffix shape
instantiated at ordinal 2. -/
theorem pipeline_filename_scheme_witness :
    (runPipeline exNameCtx exTwoZipPhotos).1.downloads.map (fun d => d.filename) =
      (List.range (runPipeline exNameCtx exTwoZipPhotos).1.downloads.length).map
        (fun i => zipFilenameOf (baseOf exNameCtx) (i + 1)) ∧
    zipFilenameOf (baseOf exNameCtx) 2 =
      baseOf exNameCtx ++ "_part" ++ toString 2 ++ ".zip" :=
  ⟨(pipeline_filename_scheme exNameCtx exTwoZipPhotos).1,
   (pipeline_filename_scheme exNameCtx exTwoZipPhotos).2.2.2 2 (by decide)⟩

/-- C9 counterexample: a run producing one archive creates its catalog
record without any total-group-count field (`total_chunks` key absent). -/
theorem catalog_without_total_chunks_cex :
    ((runPipeline exRecordCtx exOneZipPhotos).2.zips.map
      (fun z => z.record.data.lookup "total_chunks")) = [none] := by
  norm_num [runPipeline, List.foldl, processPhoto, startZip, finalizeAndUploadZip,
    mkFinalizedZip, initPipeState, declaredSize, MAX_MB, MIN_FILES_PER_ZIP,
    exRecordCtx, exOneZipPhotos, catalogData, List.lookup]
  decide

/-- C9 (amended): every uploaded archive and its catalog record carry
owner-scoped read/update/delete grants, and the record references the
uploaded object id, the filename, the realized size, the member count and
the ordinal — but no total group count. -/
theorem upload_record_grants_and_fields (ctx : PipeCtx) (photos : List Photo) :
    (∀ z ∈ (runPipeline ctx photos).2.zips, StaticRel ctx z) ∧
    (runPipeline ctx photos).2.zips.map (fun z => z.record.data.lookup "chunk_index") =
      (List.range (runPipeline ctx photos).2.zips.length).map
        (fun i => some (JVal.num (((i + 1 : ℕ)) : ℚ))) :=
  ⟨(zipsOk_run ctx photos).2.2.2.2, (zipsOk_run ctx photos).2.2.2.1⟩

/-- Witness for C9 (amended): the single-archive run. -/
theorem upload_record_grants_and_fields_witness :
    (∀ z ∈ (runPipeline exRecordCtx exOneZipPhotos).2.zips, StaticRel exRecordCtx z) ∧
    (runPipeline exRecordCtx exOneZipPhotos).2.zips.map
        (fun z => z.record.data.lookup "chunk_index") =
      (List.range (runPipeline exRecordCtx exOneZipPhotos).2.zips.length).map
        (fun i => some (JVal.num (((i + 1 : ℕ)) : ℚ))) :=
  upload_record_grants_and_fields exRecordCtx exOneZipPhotos

/-- C8: a valid request whose caller identity does not match the owning
user recorded on the event yields the 403 response, and the only remote
call performed is the ownership lookup itself — no listing, fetch, upload
or record creation. -/
theorem main_forbidden_no_work (req : MainRequest) (w : MainWorld) (doc : EventDoc)
    (eid : String) (hb : req.bodyValid = true) (he : req.eventId = some eid)
    (hne : eid ≠ "") (hd : w.eventDoc = some doc)
    (hmismatch : req.userId ≠ some (jsTrim (jsOr doc.user_id ""))) :
    mainRun req w = (MainResponse.forbidden, [RemoteCall.getEventDoc eid]) := by
  simp [mainRun, hb, he, hne, hd, hmismatch]

/-- Witness for C8: `mallory` requests the event owned by `alice`. -/
theorem main_forbidden_no_work_witness :
    mainRun exMainReqEvil exMainWorld =
      (MainResponse.forbidden, [RemoteCall.getEventDoc "ev1"]) :=
  main_forbidden_no_work exMainReqEvil exMainWorld
    { user_id := some "alice", event_name := some "Trip" } "ev1"
    rfl rfl (by decide) rfl (by decide)

/-- C10: a request without the `x-appwrite-user-id` header never yields the
200 success payload; once the event lookup succeeds it yields exactly the
403 response after only the ownership lookup, since the trimmed owner
string never strictly equals an absent caller id. -/
theorem main_missing_user_forbidden (req : MainRequest) (w : MainWorld)
    (h : req.userId = none) :
    (mainRun req w).1.statusCode ≠ 200 ∧
    ∀ doc eid, req.bodyValid = true → req.eventId = some eid → eid ≠ "" →
      w.eventDoc = some doc →
      mainRun req w = (MainResponse.forbidden, [RemoteCall.getEventDoc eid]) := by
  constructor
  · unfold mainRun
    split
    · simp [MainResponse.statusCode]
    · split
      · simp [MainResponse.statusCode]
      · split
        · simp [MainResponse.statusCode]
        · split
          · simp [MainResponse.statusCode]
          · rw [h]
            simp [MainResponse.statusCode]
  · intro doc eid hb he hne hd
    simp [mainRun, hb, he, hne, hd, h]

/-- Witness for C10: a request with no identity header against the event
owned by `alice`. -/
theorem main_missing_user_forbidden_witness :
    (mainRun exMainReqNoUser exMainWorld).1.statusCode ≠ 200 ∧
    mainRun exMainReqNoUser exMainWorld =
      (MainResponse.forbidden, [RemoteCall.getEventDoc "ev1"]) :=
  ⟨(main_missing_user_forbidden exMainReqNoUser exMainWorld rfl).1,
   (main_missing_user_forbidden exMainReqNoUser exMainWorld rfl).2
     { user_id := some "alice", event_name := some "Trip" } "ev1"
     rfl rfl (by decide) rfl⟩

theorem fetchTrace_filter_upload (l : List Photo) :
    (l.map (fun p => RemoteCall.fetchBlob p.file_id)).filter (fun c => isUploadCall c) = [] := by
  induction l with
  | nil => rfl
  | cons p ps ih => simp [isUploadCall, ih]

theorem fetchTrace_filter_createDoc (l : List Photo) :
    (l.map (fun p => RemoteCall.fetchBlob p.file_id)).filter (fun c => isCreateDocCall c) = [] := by
  induction l with
  | nil => rfl
  | cons p ps ih => simp [isCreateDocCall, ih]

theorem processChunk_filter_upload (w : MainWorld) (u eid : String) (ename : Option String)
    (totalChunks i : ℕ) (chunk : List Photo) :
    ((mainProcessChunk w u eid ename totalChunks i chunk).2.filter
      (fun c => isUploadCall c)).length = 1 := by
  unfold mainProcessChunk
  rw [List.filter_append, fetchTrace_filter_upload]
  simp [isUploadCall]

theorem processChunk_filter_createDoc (w : MainWorld) (u eid : String) (ename : Option String)
    (totalChunks i : ℕ) (chunk : List Photo) :
    ((mainProcessChunk w u eid ename totalChunks i chunk).2.filter
      (fun c => isCreateDocCall c)).length = 1 := by
  unfold mainProcessChunk
  rw [List.filter_append, fetchTrace_filter_createDoc]
  simp [isCreateDocCall]

theorem processChunks_counts (w : MainWorld) (u eid : String) (ename : Option String)
    (totalChunks : ℕ) :
    ∀ (chunks : List (List Photo)) (i : ℕ),
      ((mainProcessChunks w u eid ename totalChunks i chunks).2.filter
        (fun c => isUploadCall c)).length = chunks.length ∧
      ((mainProcessChunks w u eid ename totalChunks i chunks).2.filter
        (fun c => isCreateDocCall c)).length = chunks.length ∧
      (mainProcessChunks w u eid ename totalChunks i chunks).1.length = chunks.length := by
  intro chunks
  induction chunks with
  | nil => intro i; refine ⟨rfl, rfl, rfl⟩
  | cons c cs ih =>
      intro i
      obtain ⟨ih1, ih2, ih3⟩ := ih (i + 1)
      refine ⟨?_, ?_, ?_⟩
      · simp only [mainProcessChunks]
        rw [List.filter_append, List.length_append, processChunk_filter_upload, ih1,
          List.length_cons]
        omega
      · simp only [mainProcessChunks]
        rw [List.filter_append, List.length_append, processChunk_filter_createDoc, ih2,
          List.length_cons]
        omega
      · simp only [mainProcessChunks]
        rw [List.length_cons, List.length_cons, ih3]

/-- C4 counterexample: in main.js, a run whose only group's only member
fails to fetch still issues exactly one upload and one catalog write and
reports plain success — the zero-success group is not skipped. -/
theorem main_uploads_empty_archive_cex :
    exAllFailWorld.fetch exMainPhoto1.file_id = Except.error "down" ∧
    exAllFailWorld.photoDocs = [exMainPhoto1] ∧
    ((mainRun exMainReqOwner exAllFailWorld).2.filter
      (fun c => isUploadCall c)).length = 1 ∧
    ((mainRun exMainReqOwner exAllFailWorld).2.filter
      (fun c => isCreateDocCall c)).length = 1 ∧
    (mainRun exMainReqOwner exAllFailWorld).1 = MainResponse.success 1 [mainDocId 0] := by
  have hjs : jsTrim (jsOr (some "alice") "") = "alice" := by decide
  have c0 : ¬ ((([exMainPhoto1] : List Photo).drop 0).take 100).length = 0 := by decide
  have c1 : ((([exMainPhoto1] : List Photo).drop 0).take 100).length < 100 := by decide
  have hcol : collectPages [exMainPhoto1] 0 = ([exMainPhoto1], [RemoteCall.listPhotos 0]) := by
    rw [collectPages, dif_neg c0, dif_pos c1]
    simp
  have hchunks : chunkPhotos MAX_CHUNK_MB [exMainPhoto1] = [[exMainPhoto1]] := by
    norm_num [chunkPhotos, chunkGo, declaredSize, exMainPhoto1, MAX_CHUNK_MB]
  have hjs2 : jsTrim "alice" = "alice" := by decide
  have hrun : mainRun exMainReqOwner exAllFailWorld =
      (MainResponse.success 1 [mainDocId 0],
       [RemoteCall.getEventDoc "ev1", RemoteCall.listPhotos 0] ++
         (mainProcessChunks exAllFailWorld "alice" "ev1" (some "Trip") 1 0
           [[exMainPhoto1]]).2) := by
    simp [mainRun, exMainReqOwner, exAllFailWorld, jsOr, hjs2, hcol, hchunks]
    rfl
  obtain ⟨hcnt1, hcnt2, _⟩ :=
    processChunks_counts exAllFailWorld "alice" "ev1" (some "Trip") 1 [[exMainPhoto1]] 0
  refine ⟨rfl, rfl, ?_, ?_, ?_⟩
  · rw [hrun, List.filter_append]
    have h0 : List.filter (fun c => isUploadCall c)
        [RemoteCall.getEventDoc "ev1", RemoteCall.listPhotos 0] = [] := rfl
    rw [h0, List.nil_append, hcnt1]
    rfl
  · rw [hrun, List.filter_append]
    have h0 : List.filter (fun c => isCreateDocCall c)
        [RemoteCall.getEventDoc "ev1", RemoteCall.listPhotos 0] = [] := rfl
    rw [h0, List.nil_append, hcnt2]
    rfl
  · rw [hrun]

/-- C4 (amended): main.js runs finalize, upload, and catalog-record
creation unconditionally for every group: exactly one upload and one
catalog write per group regardless of member fetch failures, and the
created download ids cover every group — no group is skipped. -/
theorem main_every_group_uploaded (w : MainWorld) (u eid : String) (ename : Option String)
    (totalChunks i : ℕ) (chunks : List (List Photo)) :
    ((mainProcessChunks w u eid ename totalChunks i chunks).2.filter
      (fun c => isUploadCall c)).length = chunks.length ∧
    ((mainProcessChunks w u eid ename totalChunks i chunks).2.filter
      (fun c => isCreateDocCall c)).length = chunks.length ∧
    (mainProcessChunks w u eid ename totalChunks i chunks).1.length = chunks.length :=
  processChunks_counts w u eid ename totalChunks chunks i

/-- Witness for C4 (amended): the all-failing single-photo group still
yields one upload, one catalog write, and one download id. -/
theorem main_every_group_uploaded_witness :
    ((mainProcessChunks exAllFailWorld "alice" "ev1" (some "Trip") 1 0
        [[exMainPhoto1]]).2.filter (fun c => isUploadCall c)).length = 1 ∧
    ((mainProcessChunks exAllFailWorld "alice" "ev1" (some "Trip") 1 0
        [[exMainPhoto1]]).2.filter (fun c => isCreateDocCall c)).length = 1 ∧
    (mainProcessChunks exAllFailWorld "alice" "ev1" (some "Trip") 1 0
        [[exMainPhoto1]]).1.length = 1 :=
  main_every_group_uploaded exAllFailWorld "alice" "ev1" (some "Trip") 1 0 [[exMainPhoto1]]

/-- C6 counterexample: in main.js, a run in which a member's fetch fails
returns a response identical to the response of the same run with every
fetch succeeding — no failure record for that member is collected or
surfaced anywhere in the result. -/
theorem main_no_failure_record_cex :
    exAllFailWorld.fetch exMainPhoto1.file_id = Except.error "down" ∧
    exAllOkWorld.fetch exMainPhoto1.file_id = Except.ok 5 ∧
    (mainRun exMainReqOwner exAllFailWorld).1 = (mainRun exMainReqOwner exAllOkWorld).1 := by
  have hjs : jsTrim (jsOr (some "alice") "") = "alice" := by decide
  have c0 : ¬ ((([exMainPhoto1] : List Photo).drop 0).take 100).length = 0 := by decide
  have c1 : ((([exMainPhoto1] : List Photo).drop 0).take 100).length < 100 := by decide
  have hcol : collectPages [exMainPhoto1] 0 = ([exMainPhoto1], [RemoteCall.listPhotos 0]) := by
    rw [collectPages, dif_neg c0, dif_pos c1]
    simp
  have hchunks : chunkPhotos MAX_CHUNK_MB [exMainPhoto1] = [[exMainPhoto1]] := by
    norm_num [chunkPhotos, chunkGo, declaredSize, exMainPhoto1, MAX_CHUNK_MB]
  have hjs2 : jsTrim "alice" = "alice" := by decide
  have hfail : (mainRun exMainReqOwner exAllFailWorld).1 =
      MainResponse.success 1 [mainDocId 0] := by
    simp [mainRun, exMainReqOwner, exAllFailWorld, jsOr, hjs2, hcol, hchunks]
    rfl
  have hok : (mainRun exMainReqOwner exAllOkWorld).1 =
      MainResponse.success 1 [mainDocId 0] := by
    simp [mainRun, exMainReqOwner, exAllOkWorld, jsOr, hjs2, hcol, hchunks]
    rfl
  exact ⟨rfl, rfl, hfail.trans hok.symm⟩

/-- C6 (amended): a member whose fetch fails is only logged in main.js: it
contributes no archive entry and no failure record, while the surrounding
members of its group are still appended and the group is still uploaded
and recorded — the failure aborts neither the group nor the pipeline. -/
theorem main_member_failure_logged_only (w : MainWorld) (u eid : String)
    (ename : Option String) (totalChunks i : ℕ) (pre post : List Photo)
    (p : Photo) (e : String) (he : w.fetch p.file_id = Except.error e) :
    mainChunkEntries w (pre ++ p :: post) =
      mainChunkEntries w pre ++ mainChunkEntries w post ∧
    ((mainProcessChunk w u eid ename totalChunks i (pre ++ p :: post)).2.filter
      (fun c => isUploadCall c)).length = 1 ∧
    ((mainProcessChunk w u eid ename totalChunks i (pre ++ p :: post)).2.filter
      (fun c => isCreateDocCall c)).length = 1 := by
  refine ⟨?_, processChunk_filter_upload w u eid ename totalChunks i _,
    processChunk_filter_createDoc w u eid ename totalChunks i _⟩
  unfold mainChunkEntries
  rw [List.filterMap_append, List.filterMap_cons]
  simp [he]

/-- Witness for C6 (amended): in the mixed run the failing first member is
dropped while the second member's group is still uploaded and recorded. -/
theorem main_member_failure_logged_only_witness :
    mainChunkEntries exMixWorld ([] ++ exMainPhoto1 :: [exMainPhoto2]) =
      mainChunkEntries exMixWorld [] ++ mainChunkEntries exMixWorld [exMainPhoto2] ∧
    ((mainProcessChunk exMixWorld "alice" "ev1" (some "Trip") 1 0
        ([] ++ exMainPhoto1 :: [exMainPhoto2])).2.filter
      (fun c => isUploadCall c)).length = 1 ∧
    ((mainProcessChunk exMixWorld "alice" "ev1" (some "Trip") 1 0
        ([] ++ exMainPhoto1 :: [exMainPhoto2])).2.filter
      (fun c => isCreateDocCall c)).length = 1 :=
  main_member_failure_logged_only exMixWorld "alice" "ev1" (some "Trip") 1 0
    [] [exMainPhoto2] exMainPhoto1 "down" (by simp [exMixWorld, exMainPhoto1])
